import Mathlib

/-!
Shallow embedding of `near-sdk/src/store/tree_map/mod.rs`: a `TreeMap`
composed of a value store (`LookupMap`) and an AVL-style key index (`Tree`)
whose nodes live in a slot arena (`FreeList`).  Keys and values are
monomorphised to `Nat`.  Storage-backed fallibility is made explicit:
`expect(None)` (which calls `env::abort()`) becomes `Res.abort`, `todo!()`
and `unwrap()` panics become `Res.panic`, and loops/recursion through arena
links are given fuel, with exhausted fuel reported as `Res.fuelOut`.
-/

namespace AvlSdk

/-- Outcome of a storage-backed operation: a value, an `env::abort()`
(from `expect` on a missing value), a Rust panic (`todo!()`/`unwrap`), or
fuel exhaustion standing for non-termination of a link-following loop. -/
inductive Res (α : Type) : Type where
  | ok : α → Res α
  | abort : Res α
  | panic : Res α
  | fuelOut : Res α
deriving Repr, DecidableEq

/-- Sequencing of fallible operations: errors propagate. -/
def Res.bind {α β : Type} : Res α → (α → Res β) → Res β
  | .ok a, f => f a
  | .abort, _ => .abort
  | .panic, _ => .panic
  | .fuelOut, _ => .fuelOut

/-- One arena entry (`struct Node<K>` in the source): key, left and right
child links by arena slot id, and the stored subtree height `ht : u32`. -/
structure Node : Type where
  key : Nat
  lft : Option Nat
  rgt : Option Nat
  ht : Nat
deriving Repr, DecidableEq

/-- `Node::of(key)`: a fresh node with no children and `ht = 0`. -/
def Node.of (key : Nat) : Node :=
  { key := key, lft := none, rgt := none, ht := 0 }

/-- Modelled from the spec: the Slot Arena (`FreeList`, whose own source is
not part of this tree-map file).  Occupied slot ids form the dense range
`[0, len)`; `insert` stores the item in a fresh slot and returns its id;
out-of-range access returns nothing. -/
structure FreeList : Type where
  slots : List Node
deriving Repr, DecidableEq

/-- Arena occupancy (`FreeList::len`). -/
def FreeList.len (l : FreeList) : Nat := l.slots.length

/-- `FreeList::get`: the item at slot `i`, or nothing if out of range. -/
def FreeList.get (l : FreeList) (i : Nat) : Option Node := l.slots.get? i

/-- Writing through `FreeList::get_mut` at an occupied slot. -/
def FreeList.set (l : FreeList) (i : Nat) (n : Node) : FreeList :=
  ⟨l.slots.set i n⟩

/-- `FreeList::insert`: with no free slots outstanding (no removal ever
completes in this file), the fresh id is the current length. -/
def FreeList.insert (l : FreeList) (n : Node) : FreeList × Nat :=
  (⟨l.slots ++ [n]⟩, l.slots.length)

/-- `FreeList::is_empty`. -/
def FreeList.is_empty (l : FreeList) : Bool := l.slots.isEmpty

/-- Modelled from the spec: the Value Store (`LookupMap`, whose own source
is not part of this tree-map file): a content-addressed key-to-value map
with `get`, `contains`, value insertion/replacement and `remove`. -/
structure LookupMap : Type where
  entries : List (Nat × Nat)
deriving Repr, DecidableEq

/-- `LookupMap::get`. -/
def LookupMap.get (m : LookupMap) (k : Nat) : Option Nat :=
  (m.entries.find? (fun p => p.1 == k)).map Prod.snd

/-- `LookupMap::contains_key`. -/
def LookupMap.contains_key (m : LookupMap) (k : Nat) : Bool :=
  (m.get k).isSome

/-- Storing a value under a key: replaces the value if the key is present
(`Entry::Occupied` + `mem::replace`), appends a fresh entry otherwise
(`Entry::Vacant::insert`). -/
def LookupMap.setVal (m : LookupMap) (k v : Nat) : LookupMap :=
  if (m.get k).isSome then
    ⟨m.entries.map (fun p => if p.1 == k then (k, v) else p)⟩
  else
    ⟨m.entries ++ [(k, v)]⟩

/-- `LookupMap::remove`: reads and removes, returning the old value; on an
absent key it returns nothing and the map is untouched. -/
def LookupMap.remove (m : LookupMap) (k : Nat) : Option Nat × LookupMap :=
  match m.get k with
  | none => (none, m)
  | some v => (some v, ⟨m.entries.filter (fun p => !(p.1 == k))⟩)

/-- `struct Tree<K>`: root slot id (if any) plus the arena of nodes. -/
structure Tree : Type where
  root : Option Nat
  nodes : FreeList
deriving Repr, DecidableEq

/-- `Tree::node(id)`. -/
def Tree.node (t : Tree) (id : Nat) : Option Node := t.nodes.get id

/-- `Node::left`: the left child id together with its node, if both link
and slot are live. -/
def Node.left (n : Node) (list : FreeList) : Option (Nat × Node) :=
  n.lft.bind (fun id => (list.get id).map (fun c => (id, c)))

/-- `Node::right`: the right child id together with its node. -/
def Node.right (n : Node) (list : FreeList) : Option (Nat × Node) :=
  n.rgt.bind (fun id => (list.get id).map (fun c => (id, c)))

/-- The stored height of an optional child:
`link.and_then(|id| self.node(id).map(|n| n.ht)).unwrap_or_default()`. -/
def heightOf (t : Tree) (link : Option Nat) : Nat :=
  ((link.bind (fun id => (t.node id).map Node.ht)).getD 0)

/-- `Tree::update_height`: recompute `node.ht = 1 + max(l, r)` from the
stored child heights, then write the node back through
`*expect(self.nodes.get_mut(id)) = node.clone()` (aborting if slot `id` is
vacant).  Returns the updated tree and the updated node. -/
def update_height (t : Tree) (node : Node) (id : Nat) : Res (Tree × Node) :=
  let node' : Node :=
    { node with ht := 1 + max (heightOf t node.lft) (heightOf t node.rgt) }
  match t.nodes.get id with
  | none => Res.abort
  | some _ => Res.ok ({ t with nodes := t.nodes.set id node' }, node')

/-- `Tree::get_balance`: stored left height minus stored right height, as
an `i64`. -/
def get_balance (t : Tree) (node : Node) : Int :=
  (heightOf t node.lft : Int) - (heightOf t node.rgt : Int)

/-- `Tree::rotate_left` as written in the source: it fetches the *right*
child via `node.right` (calling it `left`), sets `node.lft` to that
child's right link, points the child's `rgt` at `id`, and then calls
`update_height` twice, both times with the same slot `id`, so both nodes
are written back into slot `id`.  Returns the fetched child's id. -/
def rotate_left (t : Tree) (node : Node) (id : Nat) : Res (Tree × Nat) :=
  match node.right t.nodes with
  | none => Res.abort
  | some (left_id, left) =>
    let lft_rgt := left.rgt
    let node' : Node := { node with lft := lft_rgt }
    let left' : Node := { left with rgt := some id }
    Res.bind (update_height t node' id) (fun p =>
      Res.bind (update_height p.1 left' id) (fun q =>
        Res.ok (q.1, left_id)))

/-- `Tree::rotate_right` as written in the source: fetches the right child,
sets `node.rgt` to the child's left link, points the child's `lft` at
`id`, and calls `update_height` twice with the same slot `id` (so the
second write clobbers the first instead of going to the child's slot).
Returns the child's id. -/
def rotate_right (t : Tree) (node : Node) (id : Nat) : Res (Tree × Nat) :=
  match node.right t.nodes with
  | none => Res.abort
  | some (rgt_id, rgt) =>
    let rgt_lft := rgt.lft
    let node' : Node := { node with rgt := rgt_lft }
    let rgt' : Node := { rgt with lft := some id }
    Res.bind (update_height t node' id) (fun p =>
      Res.bind (update_height p.1 rgt' id) (fun q =>
        Res.ok (q.1, rgt_id)))

/-- `Tree::enforce_balance`: on `balance > 1` pre-rotate the left child if
it is right-heavy and then `rotate_left`; on `balance < -1` symmetric with
`rotate_right`; otherwise return `id` unchanged. -/
def enforce_balance (t : Tree) (node : Node) (id : Nat) : Res (Tree × Nat) :=
  let balance := get_balance t node
  if 1 < balance then
    match node.left t.nodes with
    | none => Res.abort
    | some (left_id, left) =>
      if get_balance t left < 0 then
        Res.bind (rotate_right t left left_id) (fun p =>
          rotate_left p.1 { node with lft := some p.2 } id)
      else
        rotate_left t node id
  else if balance < -1 then
    match node.right t.nodes with
    | none => Res.abort
    | some (right_id, right) =>
      if 0 < get_balance t right then
        Res.bind (rotate_left t right right_id) (fun p =>
          rotate_right p.1 { node with rgt := some p.2 } id)
      else
        rotate_right t node id
  else
    Res.ok (t, id)

/-- `Tree::insert_at` as written in the source, with fuel for the
recursion through arena links.  Note that the recursive calls pass `id`
— the *current* node's slot — rather than the child's slot id, exactly as
the source does. -/
def insert_at (t : Tree) (node : Node) (id : Nat) (key : Nat) :
    Nat → Res (Tree × Nat)
  | 0 => Res.fuelOut
  | Nat.succ fuel =>
    if key = node.key then
      Res.ok (t, id)
    else
      Res.bind
        (if key < node.key then
          match node.lft with
          | some lft =>
            match t.node lft with
            | none => Res.abort
            | some child =>
              Res.bind (insert_at t child id key fuel) (fun p =>
                Res.ok (p.1, { node with lft := some p.2 }))
          | none =>
            let (nodes, idx) := t.nodes.insert (Node.of key)
            Res.ok ({ t with nodes := nodes }, { node with lft := some idx })
        else
          match node.rgt with
          | some rgt =>
            match t.node rgt with
            | none => Res.abort
            | some child =>
              Res.bind (insert_at t child id key fuel) (fun p =>
                Res.ok (p.1, { node with rgt := some p.2 }))
          | none =>
            let (nodes, idx) := t.nodes.insert (Node.of key)
            Res.ok ({ t with nodes := nodes }, { node with rgt := some idx }))
        (fun p =>
          Res.bind (update_height p.1 p.2 id) (fun q =>
            enforce_balance q.1 q.2 id))

/-- `Tree::internal_insert`: empty tree gets a fresh `Node::of(key)` as
root (no height update); otherwise descend from the root with `insert_at`,
discarding its returned id. -/
def internal_insert (t : Tree) (key : Nat) (fuel : Nat) : Res Tree :=
  match t.root with
  | some root =>
    match t.node root with
    | none => Res.abort
    | some node =>
      Res.bind (insert_at t node root key fuel) (fun p => Res.ok p.1)
  | none =>
    let (nodes, idx) := t.nodes.insert (Node.of key)
    Res.ok { t with root := some idx, nodes := nodes }

/-- The loop body of `Tree::lookup_at`: standard BST descent keeping the
parent; a broken or exhausted link yields "not found". -/
def lookup_go (t : Tree) (key : Nat) :
    Nat → Nat → Node → Res (Option (Node × Node))
  | 0, _, _ => Res.fuelOut
  | Nat.succ fuel, at_, p =>
    match t.node at_ with
    | none => Res.ok none
    | some node =>
      if node.key = key then
        Res.ok (some (node, p))
      else if node.key < key then
        match node.rgt with
        | some rgt => lookup_go t key fuel rgt node
        | none => Res.ok none
      else
        match node.lft with
        | some lft => lookup_go t key fuel lft node
        | none => Res.ok none

/-- `Tree::lookup_at`: the initial parent is `self.node(at).unwrap()`, a
panic when the starting slot is vacant. -/
def lookup_at (t : Tree) (at_ key fuel : Nat) : Res (Option (Node × Node)) :=
  match t.node at_ with
  | none => Res.panic
  | some p0 => lookup_go t key fuel at_ p0

/-- `Tree::do_remove` as written in the source: locate the node holding
the key; if it is absent return the root unchanged; in every branch where
the key *was* found — leaf or not — the body is `todo!()`, a panic. -/
def do_remove (t : Tree) (key : Nat) (fuel : Nat) : Res (Tree × Option Nat) :=
  match t.root with
  | none => Res.ok (t, t.root)
  | some root =>
    Res.bind (lookup_at t root key fuel) (fun found =>
      match found with
      | none => Res.ok (t, t.root)
      | some _ => Res.panic)

/-- `Tree::above_at`: guided descent for the strict successor, with fuel
for the link-following loop. -/
def above_at (t : Tree) (key : Nat) :
    Nat → Option Nat → Nat → Res (Option Nat)
  | _, _, 0 => Res.fuelOut
  | at_, seen, Nat.succ fuel =>
    match t.node at_ with
    | none => Res.ok seen
    | some n =>
      if n.key ≤ key then
        match n.rgt with
        | some rgt => above_at t key rgt seen fuel
        | none => Res.ok seen
      else
        match n.lft with
        | some lft => above_at t key lft (some n.key) fuel
        | none => Res.ok (some n.key)

/-- `Tree::below_at`: guided descent for the strict predecessor. -/
def below_at (t : Tree) (key : Nat) :
    Nat → Option Nat → Nat → Res (Option Nat)
  | _, _, 0 => Res.fuelOut
  | at_, seen, Nat.succ fuel =>
    match t.node at_ with
    | none => Res.ok seen
    | some n =>
      if n.key < key then
        match n.rgt with
        | some rgt => below_at t key rgt (some n.key) fuel
        | none => Res.ok (some n.key)
      else
        match n.lft with
        | some lft => below_at t key lft seen fuel
        | none => Res.ok seen

/-- `Tree::higher`: strict successor from the root, nothing on an empty
tree. -/
def Tree.higher (t : Tree) (key : Nat) (fuel : Nat) : Res (Option Nat) :=
  match t.root with
  | none => Res.ok none
  | some root => above_at t key root none fuel

/-- `Tree::lower`: strict predecessor from the root. -/
def Tree.lower (t : Tree) (key : Nat) (fuel : Nat) : Res (Option Nat) :=
  match t.root with
  | none => Res.ok none
  | some root => below_at t key root none fuel

/-- The loop of `Tree::min_at`: walk left links keeping the parent. -/
def min_go (t : Tree) :
    Nat → Option Node → Nat → Res (Option (Node × Node))
  | _, _, 0 => Res.fuelOut
  | at_, parent, Nat.succ fuel =>
    match t.node at_ with
    | none => Res.ok none
    | some n =>
      match n.lft with
      | some lft => min_go t lft (some n) fuel
      | none => Res.ok (parent.map (fun p => (n, p)))

/-- `Tree::min_at`. -/
def min_at (t : Tree) (at_ p fuel : Nat) : Res (Option (Node × Node)) :=
  min_go t at_ (t.node p) fuel

/-- The loop of `Tree::max_at`: walk right links keeping the parent. -/
def max_go (t : Tree) :
    Nat → Option Node → Nat → Res (Option (Node × Node))
  | _, _, 0 => Res.fuelOut
  | at_, parent, Nat.succ fuel =>
    match t.node at_ with
    | none => Res.ok none
    | some n =>
      match n.rgt with
      | some rgt => max_go t rgt (some n) fuel
      | none => Res.ok (parent.map (fun p => (n, p)))

/-- `Tree::max_at`. -/
def max_at (t : Tree) (at_ p fuel : Nat) : Res (Option (Node × Node)) :=
  max_go t at_ (t.node p) fuel

/-- `Tree::min`: smallest stored key, nothing on an empty tree. -/
def Tree.min (t : Tree) (fuel : Nat) : Res (Option Nat) :=
  match t.root with
  | none => Res.ok none
  | some root =>
    Res.bind (min_at t root root fuel) (fun o =>
      Res.ok (o.map (fun p => p.1.key)))

/-- `Tree::max`: largest stored key. -/
def Tree.max (t : Tree) (fuel : Nat) : Res (Option Nat) :=
  match t.root with
  | none => Res.ok none
  | some root =>
    Res.bind (max_at t root root fuel) (fun o =>
      Res.ok (o.map (fun p => p.1.key)))

/-- `struct TreeMap`: the value store plus the key index. -/
structure TreeMap : Type where
  values : LookupMap
  tree : Tree
deriving Repr, DecidableEq

/-- `TreeMap::len`: the arena occupancy of the index. -/
def TreeMap.len (m : TreeMap) : Nat := m.tree.nodes.len

/-- `TreeMap::is_empty`. -/
def TreeMap.is_empty (m : TreeMap) : Bool := m.tree.nodes.is_empty

/-- `TreeMap::contains_key`: delegates to the value store. -/
def TreeMap.contains_key (m : TreeMap) (k : Nat) : Bool :=
  m.values.contains_key k

/-- `TreeMap::get`: delegates to the value store. -/
def TreeMap.get (m : TreeMap) (k : Nat) : Option Nat :=
  m.values.get k

/-- `TreeMap::insert`: occupied entry replaces the value and returns the
old one, index untouched; vacant entry first inserts the key into the
index, then stores the value, returning nothing. -/
def TreeMap.insert (m : TreeMap) (key value : Nat) (fuel : Nat) :
    Res (Option Nat × TreeMap) :=
  match m.values.get key with
  | some old =>
    Res.ok (some old, { m with values := m.values.setVal key value })
  | none =>
    Res.bind (internal_insert m.tree key fuel) (fun tree =>
      Res.ok (none, { values := m.values.setVal key value, tree := tree }))

/-- `TreeMap::remove`: remove from the value store; only if a value
existed run `do_remove` and store its result as the new root. -/
def TreeMap.remove (m : TreeMap) (key : Nat) (fuel : Nat) :
    Res (Option Nat × TreeMap) :=
  let r := m.values.remove key
  if r.1.isSome then
    Res.bind (do_remove m.tree key fuel) (fun p =>
      Res.ok (r.1, { values := r.2, tree := { p.1 with root := p.2 } }))
  else
    Res.ok (r.1, { m with values := r.2 })

/-- `TreeMap::remove_entry` as written in the source: the entire body is
`todo!()`, an unconditional panic before any state is touched. -/
def TreeMap.remove_entry (_m : TreeMap) (_k : Nat) :
    Res (Option (Nat × Nat) × TreeMap) :=
  Res.panic

/-- `TreeMap::ceil_key`: the key itself when present, else the index's
strict successor. -/
def TreeMap.ceil_key (m : TreeMap) (key : Nat) (fuel : Nat) :
    Res (Option Nat) :=
  if m.contains_key key then Res.ok (some key) else m.tree.higher key fuel

/-- `TreeMap::floor_key`: the key itself when present, else the index's
strict predecessor. -/
def TreeMap.floor_key (m : TreeMap) (key : Nat) (fuel : Nat) :
    Res (Option Nat) :=
  if m.contains_key key then Res.ok (some key) else m.tree.lower key fuel

/-- The empty map (fresh `TreeMap::new`). -/
def emptyMap : TreeMap := ⟨⟨[]⟩, ⟨none, ⟨[]⟩⟩⟩

/-- Chain an insert onto a previous outcome, keeping only the map (fuel
100 covers every terminating run used below). -/
def ins (r : Res TreeMap) (k v : Nat) : Res TreeMap :=
  Res.bind r (fun m => Res.bind (m.insert k v 100) (fun p => Res.ok p.2))

/-- Inserting 1, 2, 3 into the empty map. -/
def run123 : Res TreeMap := ins (ins (ins (Res.ok emptyMap) 1 1) 2 2) 3 3

/-- The state the source produces for inserts 1, 2, 3: the root slot's
record has both child links pointing back at slot 0 itself. -/
def map123 : TreeMap :=
  ⟨⟨[(1, 1), (2, 2), (3, 3)]⟩,
   ⟨some 0,
    ⟨[⟨1, some 0, some 0, 2⟩, ⟨2, none, none, 0⟩, ⟨3, none, none, 0⟩]⟩⟩⟩

/-- Inserting 10, 20, 30 into the empty map. -/
def runTens : Res TreeMap :=
  ins (ins (ins (Res.ok emptyMap) 10 1) 20 2) 30 3

/-- The state the source produces for inserts 10, 20, 30 — same shape as
`map123`: the root slot links to itself on both sides. -/
def mapTens : TreeMap :=
  ⟨⟨[(10, 1), (20, 2), (30, 3)]⟩,
   ⟨some 0,
    ⟨[⟨10, some 0, some 0, 2⟩, ⟨20, none, none, 0⟩, ⟨30, none, none, 0⟩]⟩⟩⟩

/-- The true (mathematical) height of the structure hanging off a child
link, as the spec defines it: 0 for an absent child, otherwise
`1 + max` over the children; `none` when the links do not form a
well-founded tree within the given fuel. -/
def heightF (t : Tree) : Option Nat → Nat → Option Nat
  | none, _ => some 0
  | some _, 0 => none
  | some i, Nat.succ fuel =>
    Option.bind (t.node i) (fun n =>
      Option.bind (heightF t n.lft fuel) (fun hl =>
        Option.bind (heightF t n.rgt fuel) (fun hr =>
          some (1 + max hl hr))))

/-- Binding a successful outcome applies the continuation. -/
@[simp] theorem Res.ok_bind {α β : Type} (a : α) (f : α → Res β) :
    Res.bind (Res.ok a) f = f a := rfl

/-- Fuel exhaustion propagates through `bind`. -/
@[simp] theorem Res.fuelOut_bind {α β : Type} (f : α → Res β) :
    Res.bind Res.fuelOut f = Res.fuelOut := rfl

/-- If the node in slot `i` is its own right child and its key is below
the probe, `insert_at` recurses forever: the source's recursive call
passes the current slot id, so the state never changes. -/
theorem insert_at_cycle (t : Tree) (node : Node) (id key : Nat)
    (hn : t.node id = some node) (hk : node.key < key) (hr : node.rgt = some id) :
    ∀ fuel, insert_at t node id key fuel = Res.fuelOut := by
  intro fuel
  induction fuel with
  | zero => rfl
  | succ n ih =>
    have h1 : ¬(key = node.key) := by omega
    have h2 : ¬(key < node.key) := by omega
    simp only [insert_at, if_neg h1, if_neg h2, hr, hn, ih, Res.fuelOut_bind]

/-- If the node in slot `i` is its own right child and its key is at most
the probe, the strict-successor descent `above_at` loops forever. -/
theorem above_at_cycle (t : Tree) (i key : Nat) (nd : Node)
    (hn : t.node i = some nd) (hk : nd.key ≤ key) (hr : nd.rgt = some i) :
    ∀ seen fuel, above_at t key i seen fuel = Res.fuelOut := by
  intro seen fuel
  induction fuel generalizing seen with
  | zero => rfl
  | succ n ih =>
    simp only [above_at, hn, if_pos hk, hr, ih]

/-- If the node in slot `i` is its own left child, the links under `i` are
not well-founded and its true height is undefined at every fuel. -/
theorem heightF_cycle (t : Tree) (i : Nat) (nd : Node)
    (hn : t.node i = some nd) (hl : nd.lft = some i) :
    ∀ fuel, heightF t (some i) fuel = none := by
  intro fuel
  induction fuel with
  | zero => rfl
  | succ n ih =>
    simp only [heightF, hn, Option.some_bind, hl, ih, Option.none_bind]

/-- Unfolding of the fuel-independent prefix of inserting key 40 into the
state left by inserts 10, 20, 30. -/
theorem insert_step_mapTens (fuel : Nat) :
    TreeMap.insert mapTens 40 4 fuel =
      Res.bind
        (Res.bind (insert_at mapTens.tree ⟨10, some 0, some 0, 2⟩ 0 40 fuel)
          (fun p => Res.ok p.1))
        (fun tree =>
          Res.ok (none, { values := mapTens.values.setVal 40 4, tree := tree })) := rfl

/-- Unfolding of the fuel-independent prefix of inserting key 4 into the
state left by inserts 1, 2, 3. -/
theorem insert_step_map123 (fuel : Nat) :
    TreeMap.insert map123 4 4 fuel =
      Res.bind
        (Res.bind (insert_at map123.tree ⟨1, some 0, some 0, 2⟩ 0 4 fuel)
          (fun p => Res.ok p.1))
        (fun tree =>
          Res.ok (none, { values := map123.values.setVal 4 4, tree := tree })) := rfl

/-- Claim C1: the spec says `remove(k)` of a present key returns `Some(v)`
and then removes `k` from the index.  In the code every branch of
`Tree::do_remove` that actually finds the key ends in `todo!()`: removing
the one present key of a singleton map panics (after the value store was
already mutated) instead of completing. -/
theorem c1_remove_present_key_panics :
    Res.bind (ins (Res.ok emptyMap) 1 10) (fun m => m.remove 1 100) =
      Res.panic := rfl

/-- Claim C2: the spec says inserting an absent key stores the value and
returns nothing.  In the code, after inserting 3 and 2 into the empty map,
inserting the absent key 1 aborts: `insert_at` recurses with the parent's
slot id, producing a self-linked root whose stored balance is 2, and the
ensuing `rotate_left` calls `expect` on the absent *right* child. -/
theorem c2_insert_3_2_1_aborts :
    ins (ins (ins (Res.ok emptyMap) 3 30) 2 20) 1 10 = Res.abort := rfl

/-- Claim C3: the spec's AVL balance invariant requires every node's
balance factor `height(left) - height(right)` to lie in `{-1, 0, 1}`.
After inserting 1, 2, 3 into the empty map the root slot's record points
at itself on both sides, so the root has no well-founded subtree heights
at all — no balance factor in `{-1, 0, 1}` exists for it. -/
theorem c3_no_balance_factor_after_1_2_3 :
    run123 = Res.ok map123 ∧
    map123.tree.node 0 = some ⟨1, some 0, some 0, 2⟩ ∧
    ∀ fuel, heightF map123.tree (some 0) fuel = none :=
  ⟨rfl, rfl, heightF_cycle map123.tree 0 ⟨1, some 0, some 0, 2⟩ rfl rfl⟩

/-- Claim C4: the spec says inserting 1, 2, 3 yields root key 2 (and
3, 2, 1 likewise).  In the code, inserting 1, 2, 3 leaves key 1 in the
root slot (and inserting 3, 2, 1 aborts outright). -/
theorem c4_root_key_after_1_2_3_is_1 :
    run123 = Res.ok map123 ∧
    Option.bind map123.tree.root
      (fun r => Option.map Node.key (map123.tree.node r)) = some 1 :=
  ⟨rfl, rfl⟩

/-- Claim C5: the spec says a leaf — including the very first node placed
in an empty tree — has height 1.  In the code `Node::of` sets `ht = 0` and
the empty-tree branch of `internal_insert` performs no height update, so
the first inserted node is stored with height 0. -/
theorem c5_first_node_height_zero :
    TreeMap.insert emptyMap 5 7 100 =
      Res.ok (none, ⟨⟨[(5, 7)]⟩, ⟨some 0, ⟨[⟨5, none, none, 0⟩]⟩⟩⟩) := rfl

/-- Claim C6: the spec says a rotation relinks the two nodes involved and
writes each back to its own slot, moving no key.  In the code both
`update_height` calls inside `rotate_right` (and `rotate_left`) pass the
*same* slot id: rotating the root (key 2, right child key 3 in slot 1)
writes the updated child record over slot 0, erasing key 2 from the arena,
while slot 1 — returned as the new subtree root — keeps its stale record. -/
theorem c6_rotation_clobbers_parent_slot :
    rotate_right ⟨some 0, ⟨[⟨2, none, some 1, 2⟩, ⟨3, none, none, 1⟩]⟩⟩
        ⟨2, none, some 1, 2⟩ 0 =
      Res.ok (⟨some 0, ⟨[⟨3, some 0, none, 2⟩, ⟨3, none, none, 1⟩]⟩⟩, 1) := rfl

/-- Claim C7: the spec's scenario inserts 10, 20, 30, 40, 50 and then
queries `higher`/`lower`.  In the code the third insert leaves the root
slot linked to itself, and inserting 40 then recurses forever through that
slot for every fuel bound — the scenario state is never reached. -/
theorem c7_scenario_unreachable_insert_40_diverges :
    runTens = Res.ok mapTens ∧
    ∀ fuel, TreeMap.insert mapTens 40 4 fuel = Res.fuelOut := by
  refine ⟨rfl, fun fuel => ?_⟩
  rw [insert_step_mapTens fuel,
    insert_at_cycle mapTens.tree ⟨10, some 0, some 0, 2⟩ 0 40 rfl (by decide) rfl fuel]
  rfl

/-- Claim C8: the spec says a probe with no qualifying stored key yields
an explicit "not found", never a fault.  After inserting 1, 2, 3 no stored
key exceeds 5, yet `higher(5)` never returns `None`: `above_at` cycles
forever through the self-linked root slot for every fuel bound. -/
theorem c8_higher_diverges_after_1_2_3 :
    run123 = Res.ok map123 ∧
    ∀ fuel, Tree.higher map123.tree 5 fuel = Res.fuelOut := by
  refine ⟨rfl, fun fuel => ?_⟩
  exact above_at_cycle map123.tree 0 5 ⟨1, some 0, some 0, 2⟩ rfl (by decide) rfl none fuel

/-- Claim C9: `TreeMap::remove_entry` is an unconditional `todo!()`: for
every map state and key it panics before touching any state and never
returns a `(key, value)` pair, present key or not. -/
theorem c9_remove_entry_always_panics (m : TreeMap) (k : Nat) :
    TreeMap.remove_entry m k = Res.panic := rfl

/-- Claim C10: the spec concludes that after `n` inserts of distinct keys
`len() = n`.  Three distinct inserts do give `len() = 3`, but the fourth
distinct insert (key 4 after 1, 2, 3) recurses forever through the
self-linked root slot for every fuel bound, so it allocates no node and
never returns — `len() = 4` is never reached. -/
theorem c10_fourth_distinct_insert_diverges :
    run123 = Res.ok map123 ∧ map123.len = 3 ∧
    ∀ fuel, TreeMap.insert map123 4 4 fuel = Res.fuelOut := by
  refine ⟨rfl, rfl, fun fuel => ?_⟩
  rw [insert_step_map123 fuel,
    insert_at_cycle map123.tree ⟨1, some 0, some 0, 2⟩ 0 4 rfl (by decide) rfl fuel]
  rfl

end AvlSdk
